import Mathlib

/-!
Shallow embedding of `src/python_scripts/phase_one.py` (a FreeSWITCH ESL
call-origination load generator) and proofs about the claims of its
specification.

Modelling conventions:
* Python dictionaries become association lists with first-match semantics
  (`Dict.get?`, `Dict.set`, `Dict.del`, `Dict.modify`); real dictionary
  states have pairwise-distinct keys, under which first-match and
  dictionary semantics agree.
* Python `Session` objects are mutable and shared between the `sessions`
  and `peer_sessions` dictionaries (`self.peer_sessions[uuid] =
  self.sessions[partner_uuid]` stores a reference to the same object).
  The embedding therefore keeps a heap: `store` maps an abstract
  reference (a `Nat`) to the `Session` record, and both dictionaries map
  ids to references.  Deleting a dictionary entry does not delete the
  heap object, exactly as in Python.
* `e.getHeader(name)` may return `None`; headers are `Option String` and
  `pyStr` renders `none` as the string "None" the way Python's `%s` does.
* `con.api(cmd)` is fire-and-forget; the embedding records each issued
  command string in the `cmds` list.  `sched.enter(delay, ...)` calls are
  recorded in `sched_enters`.
* `uuid.uuid1()` is modelled by a counter (`uuid_ctr`) rendered through
  `genUuid`; `random.randint` by an oracle stream `rand_stream`.
* A Python exception escaping a statement is modelled by returning the
  state at the moment of the raise together with `some` error
  (`SMState × Option PyErr`); callers that catch (`process_event`,
  `handle_custom`) drop the error, callers that do not propagate it.
-/

namespace PhaseOne

/-- First-match association-list lookup (Python `d[k]` / `k in d`). -/
def Dict.get? {α β : Type} [DecidableEq α] : List (α × β) → α → Option β
  | [], _ => none
  | (k', v) :: t, k => if k' = k then some v else Dict.get? t k

/-- Python `d[k] = v`: replace the first binding of `k`, else append. -/
def Dict.set {α β : Type} [DecidableEq α] : List (α × β) → α → β → List (α × β)
  | [], k, v => [(k, v)]
  | (k', v') :: t, k, v =>
    if k' = k then (k, v) :: t else (k', v') :: Dict.set t k v

/-- Python `del d[k]`: remove the first binding of `k`. -/
def Dict.del {α β : Type} [DecidableEq α] : List (α × β) → α → List (α × β)
  | [], _ => []
  | (k', v') :: t, k => if k' = k then t else (k', v') :: Dict.del t k

/-- In-place mutation of the value bound to `k` (heap-object update). -/
def Dict.modify {α β : Type} [DecidableEq α] : List (α × β) → α → (β → β) → List (α × β)
  | [], _, _ => []
  | (k', v') :: t, k, f =>
    if k' = k then (k', f v') :: t else (k', v') :: Dict.modify t k f

/-- Key list of an association list. -/
def Dict.keys {α β : Type} (d : List (α × β)) : List α := d.map Prod.fst

/-- An inbound ESL event: a bag of headers (`e.getHeader`). -/
structure Event where
  headers : List (String × String)
deriving DecidableEq, Repr

/-- `e.getHeader(name)` returns the header value or `None`. -/
def Event.getHeader (e : Event) (name : String) : Option String :=
  Dict.get? e.headers name

/-- Python's `'%s' % x` rendering of a possibly-`None` string. -/
def pyStr : Option String → String
  | none => "None"
  | some s => s

/-- The `Session` class of `phase_one.py`. -/
structure Session where
  uuid : String
  partner_uuid : Option String
  created : Bool
  answered : Bool
  bert_sync_lost_cnt : Nat
  bert_timeout : Bool
deriving DecidableEq, Repr

/-- `Session.__init__`: only the uuid is set, everything else defaulted. -/
def Session.init (u : String) : Session :=
  { uuid := u, partner_uuid := none, created := false, answered := false,
    bert_sync_lost_cnt := 0, bert_timeout := false }

/-- Immutable configuration of a `SessionManager` run. -/
structure Config where
  rate : Nat
  limit : Nat
  max_sessions : Nat
  duration : Nat
  random : Nat
  time_rate : Nat
  report_interval : Nat
  dtmf_seq : Option String
  dtmf_delay : Nat
  test_id : String
  originate_string_tail : String
deriving DecidableEq, Repr

def test_id_var : String := "fs_test"

def test_uuid_x_header : String := "sip_h_X-fs_test_uuid"

def bert_sync_lost_var : String := "bert_stats_sync_lost"

/-- Exceptions that the embedded code can raise. -/
inductive PyErr where
  | typeError
  | nameError
deriving DecidableEq, Repr

/-- Mutable state of a `SessionManager`, plus the observable outputs
(issued api commands, scheduler enters) and the oracles for uuid
generation, random durations and reconnect outcomes. -/
structure SMState where
  store : List (Nat × Session)
  next_ref : Nat
  sessions : List (String × Nat)
  peer_sessions : List (Option String × Nat)
  hangup_causes : List (Option String × Nat)
  total_originated_sessions : Nat
  total_answered_sessions : Nat
  total_failed_sessions : Nat
  terminate : Bool
  paused : Nat
  con_connected : Bool
  conn_outcomes : List Bool
  conn_attempts : Nat
  uuid_ctr : Nat
  rand_stream : List Nat
  cmds : List String
  sched_enters : List Nat
deriving DecidableEq, Repr

/-- Dereference a heap reference; well-formed states never hit the
default (a Python reference always points at a live object). -/
def SMState.obj (s : SMState) (r : Nat) : Session :=
  (Dict.get? s.store r).getD (Session.init "")

/-- Deterministic rendering of `uuid.uuid1()` results. -/
def genUuid (n : Nat) : String := "uuid-" ++ Nat.repr n

/-- `random.randint(lo, hi)` driven by one oracle value. -/
def randint (lo hi r : Nat) : Nat := lo + r % (hi + 1 - lo)

def uuid_set_var_cmd (u varName v : String) : String :=
  "uuid_set_var " ++ u ++ " " ++ varName ++ " " ++ v

/-- `SessionManager.handle_create` (phase_one.py lines 221-235). -/
def handle_create (cfg : Config) (e : Event) (s : SMState) : SMState :=
  let uuid := e.getHeader "Unique-ID"
  if (match uuid with
      | some u => (Dict.get? s.sessions u).isSome
      | none => false) then s
  else
    match e.getHeader ("variable_" ++ test_uuid_x_header) with
    | none => s
    | some p =>
      if p = "" then s
      else
        match Dict.get? s.sessions p with
        | none => s
        | some r =>
          { s with
            store := Dict.modify s.store r (fun x => { x with partner_uuid := uuid }),
            peer_sessions := Dict.set s.peer_sessions uuid r,
            cmds := s.cmds ++ [uuid_set_var_cmd (pyStr uuid) test_id_var cfg.test_id] }

/-- `SessionManager.handle_originate` (lines 237-256).  `report()` only
logs, so it has no state effect here. -/
def handle_originate (cfg : Config) (e : Event) (s : SMState) : SMState :=
  match e.getHeader "Unique-ID" with
  | none => s
  | some u =>
    match Dict.get? s.sessions u with
    | none => s
    | some r =>
      let s1 := { s with
        store := Dict.modify s.store r (fun x => { x with created := true }),
        total_originated_sessions := s.total_originated_sessions + 1 }
      let dur := if cfg.random ≠ 0
        then randint cfg.random cfg.duration (s1.rand_stream.headD 0)
        else cfg.duration
      let s2 := if cfg.random ≠ 0 then { s1 with rand_stream := s1.rand_stream.tail } else s1
      let s3 := { s2 with cmds := s2.cmds ++
        ["sched_hangup +" ++ Nat.repr dur ++ " " ++ u ++ " NORMAL_CLEARING"] }
      match cfg.dtmf_seq with
      | some seq =>
        if seq = "" then s3
        else { s3 with cmds := s3.cmds ++
          ["sched_api +" ++ Nat.repr cfg.dtmf_delay ++ " none uuid_send_dtmf " ++ u ++ " " ++ seq] }
      | none => s3

/-- `SessionManager.handle_answer` (lines 258-264); also bound to
`CHANNEL_BRIDGE` in the handler table. -/
def handle_answer (e : Event) (s : SMState) : SMState :=
  match e.getHeader "Unique-ID" with
  | none => s
  | some u =>
    match Dict.get? s.sessions u with
    | none => s
    | some r =>
      { s with
        total_answered_sessions := s.total_answered_sessions + 1,
        store := Dict.modify s.store r (fun x => { x with answered := true }) }

/-- Record a hangup cause in the histogram (lines 271-274). -/
def bumpCause (d : List (Option String × Nat)) (k : Option String) : List (Option String × Nat) :=
  match Dict.get? d k with
  | none => Dict.set d k 1
  | some n => Dict.set d k (n + 1)

/-- `SessionManager.handle_hangup` (lines 266-281).  Note the primary
entry is deleted but the heap object and any `peer_sessions` entries
referring to it survive, as in the source. -/
def handle_hangup (cfg : Config) (e : Event) (s : SMState) : SMState :=
  match e.getHeader "Unique-ID" with
  | none => s
  | some u =>
    match Dict.get? s.sessions u with
    | none => s
    | some r =>
      let cause := e.getHeader "Hangup-Cause"
      let s1 := { s with hangup_causes := bumpCause s.hangup_causes cause }
      let s2 := if (s1.obj r).answered then s1
        else { s1 with total_failed_sessions := s1.total_failed_sessions + 1 }
      let s3 := { s2 with sessions := Dict.del s2.sessions u }
      if cfg.max_sessions ≠ 0 ∧ s3.total_originated_sessions ≥ cfg.max_sessions
          ∧ s3.sessions.length = 0
      then { s3 with terminate := true }
      else s3

/-- Session resolution used by `handle_bert_lost_sync` (lines 284-292):
via the primary registry when possible, else via the peer mapping (the
peer entry holds a reference to the same object); the resolved
`partner_uuid` is `sess.uuid` on the peer path and `sess.partner_uuid`
on the direct path. -/
def resolveLostSync (s : SMState) (uuid : Option String) : Option (Nat × Option String) :=
  match uuid with
  | some u =>
    match Dict.get? s.sessions u with
    | some r => some (r, (s.obj r).partner_uuid)
    | none => (Dict.get? s.peer_sessions uuid).map (fun r => (r, some (s.obj r).uuid))
  | none => (Dict.get? s.peer_sessions uuid).map (fun r => (r, some (s.obj r).uuid))

/-- `SessionManager.handle_bert_lost_sync` (lines 283-299). -/
def handle_bert_lost_sync (e : Event) (s : SMState) : SMState :=
  let uuid := e.getHeader "Unique-ID"
  match resolveLostSync s uuid with
  | none => s
  | some (r, partner) =>
    let newStore := Dict.modify s.store r
      (fun x => { x with bert_sync_lost_cnt := x.bert_sync_lost_cnt + 1 })
    let s1 := { s with store := newStore }
    if (s1.obj r).bert_sync_lost_cnt > 1 then s1
    else { s1 with cmds := s1.cmds ++
      [uuid_set_var_cmd (pyStr uuid) bert_sync_lost_var "true",
       uuid_set_var_cmd (pyStr partner) bert_sync_lost_var "true"] }

/-- `SessionManager.handle_bert_timeout` (lines 301-306): only the
primary registry is consulted. -/
def handle_bert_timeout (e : Event) (s : SMState) : SMState :=
  match e.getHeader "Unique-ID" with
  | none => s
  | some u =>
    match Dict.get? s.sessions u with
    | none => s
    | some r =>
      { s with store := Dict.modify s.store r (fun x => { x with bert_timeout := true }) }

/-- Body of `SessionManager.handle_disconnect` (lines 308-310).  The
method signature takes only `self`; see `callHandler` for what happens
when the dispatcher invokes it with an event argument. -/
def handle_disconnect (s : SMState) : SMState :=
  { s with terminate := true }

/-- The handlers named in `self.ev_handlers` (lines 108-116). -/
inductive HName where
  | originate
  | create
  | answer
  | hangup
  | disconnect
  | custom
deriving DecidableEq, Repr

/-- The `ev_handlers` dictionary: `CHANNEL_ANSWER` and `CHANNEL_BRIDGE`
are both bound to `handle_answer`. -/
def ev_handlers (name : Option String) : Option HName :=
  match name with
  | none => none
  | some n =>
    if n = "CHANNEL_ORIGINATE" then some .originate
    else if n = "CHANNEL_CREATE" then some .create
    else if n = "CHANNEL_ANSWER" then some .answer
    else if n = "CHANNEL_BRIDGE" then some .answer
    else if n = "CHANNEL_HANGUP" then some .hangup
    else if n = "SERVER_DISCONNECTED" then some .disconnect
    else if n = "CUSTOM" then some .custom
    else none

/-- The `custom_ev_handlers` dictionary (lines 117-120). -/
inductive CName where
  | bert_timeout
  | bert_lost_sync
deriving DecidableEq, Repr

def custom_ev_handlers (sub : Option String) : Option CName :=
  match sub with
  | none => none
  | some n =>
    if n = "mod_bert::timeout" then some .bert_timeout
    else if n = "mod_bert::lost_sync" then some .bert_lost_sync
    else none

/-- `SessionManager.handle_custom` (lines 210-219): dispatch on
`Event-Subclass`; unknown subclasses are logged and ignored; handler
failures are caught (neither bert handler can raise). -/
def handle_custom (e : Event) (s : SMState) : SMState :=
  match custom_ev_handlers (e.getHeader "Event-Subclass") with
  | some .bert_timeout => handle_bert_timeout e s
  | some .bert_lost_sync => handle_bert_lost_sync e s
  | none => s

/-- Invoke the handler bound in `ev_handlers` with the event argument,
as `self.ev_handlers[evname](e)` does.  `handle_disconnect` is defined
with no event parameter, so that call raises `TypeError` before any of
its body runs — the state is returned unchanged with the error. -/
def callHandler (cfg : Config) (h : HName) (e : Event) (s : SMState) : SMState × Option PyErr :=
  match h with
  | .originate => (handle_originate cfg e s, none)
  | .create => (handle_create cfg e s, none)
  | .answer => (handle_answer e s, none)
  | .hangup => (handle_hangup cfg e s, none)
  | .custom => (handle_custom e s, none)
  | .disconnect => (s, some .typeError)

/-- `SessionManager.process_event` (lines 200-208): look up the handler
by `Event-Name`; unknown events are logged and ignored; a handler
exception is caught and logged, keeping the state reached so far. -/
def process_event (cfg : Config) (e : Event) (s : SMState) : SMState :=
  match ev_handlers (e.getHeader "Event-Name") with
  | none => s
  | some h => (callHandler cfg h e s).1

/-- `SessionManager.reconnect` (lines 331-337).  A fresh connection's
success is drawn from the `conn_outcomes` oracle.  On failure the source
executes `logger.error('Failed to re-connect!')`, but `logger` is a
module-global name that is never bound at module scope (`main` binds it
locally), so a `NameError` is raised there and `self.terminate = True`
is never reached. -/
def reconnect (s : SMState) : SMState × Option PyErr :=
  if s.con_connected then (s, none)
  else
    let ok := s.conn_outcomes.headD false
    let s1 := { s with
      con_connected := ok,
      conn_outcomes := s.conn_outcomes.tail,
      conn_attempts := s.conn_attempts + 1 }
    if ok then (s1, none) else (s1, some .nameError)

def originate_cmd (cfg : Config) (u : String) : String :=
  "bgapi originate \x7borigination_uuid=" ++ u ++ "," ++ test_uuid_x_header
    ++ "=" ++ u ++ "," ++ cfg.originate_string_tail

/-- The `for i in range(0, self.rate)` loop of `originate_sessions`
(lines 184-194): `sesscnt` is the local counter initialised to
`len(self.sessions)` and bumped per origination. -/
def originate_loop (cfg : Config) : Nat → Nat → SMState → SMState
  | 0, _, s => s
  | n + 1, sesscnt, s =>
    if sesscnt ≥ cfg.limit then s
    else
      let u := genUuid s.uuid_ctr
      let s1 := { s with
        uuid_ctr := s.uuid_ctr + 1,
        store := s.store ++ [(s.next_ref, Session.init u)],
        next_ref := s.next_ref + 1,
        sessions := Dict.set s.sessions u s.next_ref,
        cmds := s.cmds ++ [originate_cmd cfg u] }
      originate_loop cfg n (sesscnt + 1) s1

/-- `SessionManager.originate_sessions` (lines 169-198): the recurring
origination tick.  A `NameError` raised inside `reconnect` propagates
out of the tick. -/
def originate_sessions (cfg : Config) (s : SMState) : SMState × Option PyErr :=
  if s.paused ≠ 0 then
    ({ s with paused := s.paused + 1, sched_enters := s.sched_enters ++ [1] }, none)
  else
    match (if s.con_connected then (s, none) else reconnect s) with
    | (s1, some err) => (s1, some err)
    | (s1, none) =>
      if cfg.max_sessions ≠ 0 ∧ s1.total_originated_sessions ≥ cfg.max_sessions then
        (s1, none)
      else
        let s2 := originate_loop cfg cfg.rate s1.sessions.length s1
        ({ s2 with sched_enters := s2.sched_enters ++ [cfg.time_rate] }, none)

/-- One iteration's worth of externally visible work: either an inbound
event routed through the dispatcher or one origination tick. -/
inductive Step where
  | ev : Event → Step
  | tick : Step
deriving DecidableEq, Repr

def runStep (cfg : Config) (st : Step) (s : SMState) : SMState :=
  match st with
  | .ev e => process_event cfg e s
  | .tick => (originate_sessions cfg s).1

def runSteps (cfg : Config) : List Step → SMState → SMState
  | [], s => s
  | st :: t, s => runSteps cfg t (runStep cfg st s)

/-- Dispatcher run over a list of inbound events. -/
def runEvents (cfg : Config) : List Event → SMState → SMState
  | [], s => s
  | e :: t, s => runEvents cfg t (process_event cfg e s)

/-- A queue entry of the `sched.scheduler` underlying `FastScheduler`:
`(time, priority, action, argument)`.  The action is an abstract token
`α`; what a callback does to the queue is supplied separately (see
`fast_run_aux`). -/
structure SEvent (α : Type) where
  time : Nat
  priority : Nat
  action : α
deriving DecidableEq, Repr

/-- Insertion keeping the queue ordered by `(time, priority)`: `q[0]` is
always the earliest event, matching the heap kept by `sched.enter`. -/
def qinsert {α : Type} (ev : SEvent α) : List (SEvent α) → List (SEvent α)
  | [] => [ev]
  | x :: t =>
    if ev.time < x.time ∨ (ev.time = x.time ∧ ev.priority < x.priority)
    then ev :: x :: t
    else x :: qinsert ev t

/-- `FastScheduler.fast_run` (phase_one.py lines 49-65), parametrised by
the callbacks' behaviour: running action `a` calls
`self.sched.enter(delay, priority, a')` for each `(delay, priority, a')`
in `eff a`.  The clock is read once at entry (`now`); under the frozen
clock of the claim, `enter` stamps new events with `now + delay`.  The
`while q:` loop cancels `q[0]` before invoking its action; `fuel` bounds
the number of iterations (the Python loop diverges if callbacks keep
producing due events, which positive delays rule out).  Returns the
final queue and the executed events in execution order. -/
def fast_run_aux {α : Type} (eff : α → List (Nat × Nat × α)) (now : Nat) :
    Nat → List (SEvent α) → List (SEvent α) × List (SEvent α)
  | 0, q => (q, [])
  | fuel + 1, q =>
    match q with
    | [] => ([], [])
    | ev :: rest =>
      if now < ev.time then (ev :: rest, [])
      else
        let q1 := (eff ev.action).foldl
          (fun acc d => qinsert ⟨now + d.1, d.2.1, d.2.2⟩ acc) rest
        let out := fast_run_aux eff now fuel q1
        (out.1, ev :: out.2)

/-- An event is due when its stamp is at or before the captured time. -/
def isDue {α : Type} (now : Nat) (ev : SEvent α) : Bool :=
  decide (ev.time ≤ now)

/-- Events due at the captured time `now`, in queue order. -/
def dueAt {α : Type} (now : Nat) (q : List (SEvent α)) : List (SEvent α) :=
  q.filter (isDue now)

/-- Queue ordering maintained by the scheduler: times nondecreasing. -/
def timeSorted {α : Type} (q : List (SEvent α)) : Prop :=
  List.Pairwise (fun a b => a.time ≤ b.time) q

instance {α : Type} (q : List (SEvent α)) : Decidable (timeSorted q) := by
  unfold timeSorted
  infer_instance

/-- Total count recorded in the hangup-cause histogram. -/
def histSum (s : SMState) : Nat := (s.hangup_causes.map Prod.snd).sum

section DictLemmas

variable {α β : Type} [DecidableEq α]

theorem Dict.get?_set_self (d : List (α × β)) (k : α) (v : β) :
    Dict.get? (Dict.set d k v) k = some v := by
  induction d with
  | nil => simp [Dict.set, Dict.get?]
  | cons p t ih =>
    obtain ⟨k', v'⟩ := p
    by_cases h : k' = k <;> simp [Dict.set, Dict.get?, h, ih]

theorem Dict.length_set_le (d : List (α × β)) (k : α) (v : β) :
    (Dict.set d k v).length ≤ d.length + 1 := by
  induction d with
  | nil => simp [Dict.set]
  | cons p t ih =>
    obtain ⟨k', v'⟩ := p
    by_cases h : k' = k <;> simp [Dict.set, h] <;> omega

theorem Dict.get?_modify_self (d : List (α × β)) (k : α) (f : β → β) :
    Dict.get? (Dict.modify d k f) k = (Dict.get? d k).map f := by
  induction d with
  | nil => simp [Dict.modify, Dict.get?]
  | cons p t ih =>
    obtain ⟨k', v'⟩ := p
    by_cases h : k' = k <;> simp [Dict.modify, Dict.get?, h, ih]

theorem Dict.get?_modify_ne (d : List (α × β)) (k k' : α) (f : β → β) (h : k ≠ k') :
    Dict.get? (Dict.modify d k f) k' = Dict.get? d k' := by
  induction d with
  | nil => simp [Dict.modify]
  | cons p t ih =>
    obtain ⟨ka, va⟩ := p
    by_cases hk : ka = k
    · subst hk
      simp [Dict.modify, Dict.get?, h]
    · simp [Dict.modify, Dict.get?, hk, ih]

theorem Dict.modify_isSome (d : List (α × β)) (k k' : α) (f : β → β) :
    (Dict.get? (Dict.modify d k f) k').isSome = (Dict.get? d k').isSome := by
  by_cases h : k = k'
  · subst h; simp [Dict.get?_modify_self]
  · simp [Dict.get?_modify_ne d k k' f h]

theorem Dict.del_sublist (d : List (α × β)) (k : α) :
    List.Sublist (Dict.del d k) d := by
  induction d with
  | nil => simp [Dict.del]
  | cons p t ih =>
    obtain ⟨k', v'⟩ := p
    by_cases h : k' = k
    · simpa [Dict.del, h] using List.sublist_cons_self (k', v') t
    · simpa [Dict.del, h] using List.Sublist.cons₂ (k', v') ih

theorem Dict.length_del_le (d : List (α × β)) (k : α) :
    (Dict.del d k).length ≤ d.length :=
  (Dict.del_sublist d k).length_le

theorem Dict.keys_del_nodup (d : List (α × β)) (k : α)
    (h : (Dict.keys d).Nodup) : (Dict.keys (Dict.del d k)).Nodup :=
  List.Nodup.sublist (List.Sublist.map Prod.fst (Dict.del_sublist d k)) h

theorem Dict.keys_cons (p : α × β) (t : List (α × β)) :
    Dict.keys (p :: t) = p.1 :: Dict.keys t := rfl

theorem Dict.get?_eq_none_of_not_mem (d : List (α × β)) (k : α)
    (h : k ∉ Dict.keys d) : Dict.get? d k = none := by
  induction d with
  | nil => simp [Dict.get?]
  | cons p t ih =>
    obtain ⟨k', v'⟩ := p
    rw [Dict.keys_cons, List.mem_cons] at h
    push_neg at h
    simp only [Dict.get?]
    rw [if_neg (fun hk => h.1 hk.symm)]
    exact ih h.2

theorem Dict.get?_del_self (d : List (α × β)) (k : α)
    (h : (Dict.keys d).Nodup) : Dict.get? (Dict.del d k) k = none := by
  induction d with
  | nil => simp [Dict.del, Dict.get?]
  | cons p t ih =>
    obtain ⟨k', v'⟩ := p
    rw [Dict.keys_cons, List.nodup_cons] at h
    by_cases hk : k' = k
    · subst hk
      simp only [Dict.del, if_pos rfl]
      exact Dict.get?_eq_none_of_not_mem t k' h.1
    · simp only [Dict.del, if_neg hk, Dict.get?]
      exact ih h.2

end DictLemmas

theorem bumpCause_cons_ne (k' : Option String) (v : Nat)
    (t : List (Option String × Nat)) (k : Option String) (h : k' ≠ k) :
    bumpCause ((k', v) :: t) k = (k', v) :: bumpCause t k := by
  cases hg : Dict.get? t k <;>
    simp [bumpCause, Dict.get?, Dict.set, h, hg]

/-- Recording a cause always raises the histogram total by exactly one. -/
theorem sum_bumpCause (d : List (Option String × Nat)) (k : Option String) :
    ((bumpCause d k).map Prod.snd).sum = (d.map Prod.snd).sum + 1 := by
  induction d with
  | nil => simp [bumpCause, Dict.get?, Dict.set]
  | cons p t ih =>
    obtain ⟨k', v⟩ := p
    by_cases h : k' = k
    · subst h
      simp [bumpCause, Dict.get?, Dict.set]
      omega
    · rw [bumpCause_cons_ne k' v t k h]
      simp [ih]
      omega

/-- A quiescent state: connected, empty registry, all counters zero. -/
def baseState : SMState :=
  { store := [], next_ref := 0, sessions := [], peer_sessions := [],
    hangup_causes := [], total_originated_sessions := 0,
    total_answered_sessions := 0, total_failed_sessions := 0,
    terminate := false, paused := 0, con_connected := true,
    conn_outcomes := [], conn_attempts := 0, uuid_ctr := 0,
    rand_stream := [], cmds := [], sched_enters := [] }

/-- A small sample configuration. -/
def cfg0 : Config :=
  { rate := 2, limit := 2, max_sessions := 0, duration := 5, random := 0,
    time_rate := 1, report_interval := 0, dtmf_seq := none, dtmf_delay := 1,
    test_id := "tid-1", originate_string_tail := "user/1000" }

/-- The session object of `bridgedState`. -/
def bridgedSess : Session := { Session.init "a" with partner_uuid := some "b" }

/-- One originated session "a" bridged to a peer leg "b": the peer entry
holds a reference to the same heap object as the primary entry. -/
def bridgedState : SMState :=
  { baseState with
    store := [(0, bridgedSess)],
    next_ref := 1,
    sessions := [("a", 0)],
    peer_sessions := [(some "b", 0)] }

/-- Claim C1 counterexample: in `bridgedState` the hangup of session
"a" deletes the primary entry but leaves the peer entry `"b" ↦ ref 0`
behind, so afterwards a key of the secondary mapping no longer refers
to any session of the primary mapping — the claimed cleanup and the
resulting invariant fail at this concrete input. -/
theorem c1_counterexample :
    Dict.get? bridgedState.sessions "a" = some 0 ∧
    ¬ (∀ p ∈ (handle_hangup cfg0
          ⟨[("Event-Name", "CHANNEL_HANGUP"), ("Unique-ID", "a"),
            ("Hangup-Cause", "NORMAL_CLEARING")]⟩ bridgedState).peer_sessions,
        ∃ q ∈ (handle_hangup cfg0
          ⟨[("Event-Name", "CHANNEL_HANGUP"), ("Unique-ID", "a"),
            ("Hangup-Cause", "NORMAL_CLEARING")]⟩ bridgedState).sessions,
          q.2 = p.2) := by
  decide

/-- Claim C1, amended: for every hangup event whose session id is
present in the primary registry, `handle_hangup` removes that session
from the primary mapping but leaves the secondary (peer) mapping
entirely unchanged; secondary entries resolving to the removed session
are not pruned. -/
theorem c1_hangup_removes_primary_only (cfg : Config) (e : Event) (s : SMState)
    (u : String)
    (hu : e.getHeader "Unique-ID" = some u)
    (hr : (Dict.get? s.sessions u).isSome)
    (hnd : (Dict.keys s.sessions).Nodup) :
    Dict.get? (handle_hangup cfg e s).sessions u = none ∧
    (handle_hangup cfg e s).peer_sessions = s.peer_sessions := by
  obtain ⟨r, hg⟩ := Option.isSome_iff_exists.mp hr
  simp only [handle_hangup, hu, hg]
  constructor
  · split <;> split <;> simp [Dict.get?_del_self _ _ hnd]
  · split <;> split <;> simp

theorem c1_hangup_removes_primary_only_witness :
    Dict.get? (handle_hangup cfg0
      ⟨[("Event-Name", "CHANNEL_HANGUP"), ("Unique-ID", "a"),
        ("Hangup-Cause", "NORMAL_CLEARING")]⟩ bridgedState).sessions "a" = none ∧
    (handle_hangup cfg0
      ⟨[("Event-Name", "CHANNEL_HANGUP"), ("Unique-ID", "a"),
        ("Hangup-Cause", "NORMAL_CLEARING")]⟩ bridgedState).peer_sessions =
      bridgedState.peer_sessions :=
  c1_hangup_removes_primary_only cfg0
    ⟨[("Event-Name", "CHANNEL_HANGUP"), ("Unique-ID", "a"),
      ("Hangup-Cause", "NORMAL_CLEARING")]⟩ bridgedState "a"
    (by decide) (by decide) (by decide)

/-- Claim C2: dispatching a `SERVER_DISCONNECTED` event does NOT set the
terminate flag.  `handle_disconnect` is defined with no event parameter,
so `self.ev_handlers[evname](e)` raises `TypeError`, which
`process_event` catches and logs; the state is unchanged.  The handler
body itself (as `handle_disconnect` shows) would set the flag — the
missing parameter is the slip. -/
theorem c2_disconnect_dispatch_is_noop :
    process_event cfg0 ⟨[("Event-Name", "SERVER_DISCONNECTED")]⟩ baseState
      = baseState ∧
    baseState.terminate = false ∧
    (handle_disconnect baseState).terminate = true := by
  decide

/-- A disconnected state whose next fresh connection attempt fails. -/
def discFailState : SMState :=
  { baseState with con_connected := false, conn_outcomes := [false] }

/-- Claim C3: `reconnect` is a no-op when connected and performs exactly
one fresh attempt when disconnected; but when that attempt fails, the
`logger.error` call raises `NameError` (module-global `logger` is never
bound), so `self.terminate = True` is never executed — the run state is
NOT marked TERMINATING, contrary to the claim. -/
theorem c3_reconnect_failure_raises :
    reconnect baseState = (baseState, none) ∧
    (reconnect discFailState).2 = some PyErr.nameError ∧
    (reconnect discFailState).1.terminate = false ∧
    (reconnect discFailState).1.conn_attempts = 1 := by
  decide

/-- Claim C4 counterexample: a BERT-timeout event addressed to the peer
leg "b" (a key of the secondary mapping resolving to session "a") is
ignored by `handle_bert_timeout`: the state is unchanged and the
session's `bert_timeout` flag stays false, although the claim says the
handler resolves through the secondary mapping and sets the flag. -/
theorem c4_counterexample :
    Dict.get? bridgedState.peer_sessions (some "b") = some 0 ∧
    handle_bert_timeout
      ⟨[("Event-Name", "CUSTOM"), ("Event-Subclass", "mod_bert::timeout"),
        ("Unique-ID", "b")]⟩ bridgedState = bridgedState ∧
    ((handle_bert_timeout
      ⟨[("Event-Name", "CUSTOM"), ("Event-Subclass", "mod_bert::timeout"),
        ("Unique-ID", "b")]⟩ bridgedState).obj 0).bert_timeout = false := by
  decide

/-- Claim C4, amended: `handle_bert_timeout` resolves the acting session
only directly by id in the primary registry, setting its `bert_timeout`
flag; if the id is absent from the primary registry the event is
ignored (the state is returned unchanged), even when the id is a key of
the secondary (peer) mapping.  Only `handle_bert_lost_sync` falls back
to the secondary mapping. -/
theorem c4_bert_timeout_direct_only (e : Event) (s : SMState) (u : String)
    (r : Nat) (sess : Session)
    (hu : e.getHeader "Unique-ID" = some u) :
    (Dict.get? s.sessions u = some r → Dict.get? s.store r = some sess →
      ((handle_bert_timeout e s).obj r).bert_timeout = true) ∧
    (Dict.get? s.sessions u = none → handle_bert_timeout e s = s) := by
  constructor
  · intro hr hs
    simp [handle_bert_timeout, hu, hr, SMState.obj, Dict.get?_modify_self, hs]
  · intro hr
    simp [handle_bert_timeout, hu, hr]

theorem c4_bert_timeout_direct_only_witness :
    ((handle_bert_timeout
        ⟨[("Event-Name", "CUSTOM"), ("Event-Subclass", "mod_bert::timeout"),
          ("Unique-ID", "a")]⟩ bridgedState).obj 0).bert_timeout = true :=
  (c4_bert_timeout_direct_only
      ⟨[("Event-Name", "CUSTOM"), ("Event-Subclass", "mod_bert::timeout"),
        ("Unique-ID", "a")]⟩ bridgedState "a" 0
      { Session.init "a" with partner_uuid := some "b" }
      (by decide)).1 (by decide) (by decide)

def lostSyncEvent : Event :=
  ⟨[("Event-Name", "CUSTOM"), ("Event-Subclass", "mod_bert::lost_sync"),
    ("Unique-ID", "a")]⟩

/-- Claim C7: for a lost-sync event that resolves to a session (via
either leg), the counter is always incremented by one, and the two
set-variable commands (one for the event's leg, one for the resolved
partner leg) are issued exactly when this is the first occurrence
(counter previously zero); subsequent occurrences issue no commands. -/
theorem c7_lost_sync_first_only (e : Event) (s : SMState) (r : Nat)
    (p : Option String) (sess : Session)
    (hres : resolveLostSync s (e.getHeader "Unique-ID") = some (r, p))
    (hsess : Dict.get? s.store r = some sess) :
    Dict.get? (handle_bert_lost_sync e s).store r =
      some { sess with bert_sync_lost_cnt := sess.bert_sync_lost_cnt + 1 } ∧
    (handle_bert_lost_sync e s).cmds = s.cmds ++
      (if sess.bert_sync_lost_cnt = 0
       then [uuid_set_var_cmd (pyStr (e.getHeader "Unique-ID")) bert_sync_lost_var "true",
             uuid_set_var_cmd (pyStr p) bert_sync_lost_var "true"]
       else []) := by
  by_cases h0 : sess.bert_sync_lost_cnt = 0
  · simp [handle_bert_lost_sync, hres, SMState.obj, Dict.get?_modify_self, hsess, h0]
  · have h1 : sess.bert_sync_lost_cnt + 1 > 1 := by omega
    simp [handle_bert_lost_sync, hres, SMState.obj, Dict.get?_modify_self, hsess, h0, h1]

theorem c7_lost_sync_first_only_witness :
    Dict.get? (handle_bert_lost_sync lostSyncEvent bridgedState).store 0 =
      some { bridgedSess with
        bert_sync_lost_cnt := bridgedSess.bert_sync_lost_cnt + 1 } ∧
    (handle_bert_lost_sync lostSyncEvent bridgedState).cmds =
      bridgedState.cmds ++
      (if bridgedSess.bert_sync_lost_cnt = 0
       then [uuid_set_var_cmd (pyStr (lostSyncEvent.getHeader "Unique-ID"))
               bert_sync_lost_var "true",
             uuid_set_var_cmd (pyStr (some "b")) bert_sync_lost_var "true"]
       else []) :=
  c7_lost_sync_first_only lostSyncEvent bridgedState 0 (some "b") bridgedSess
    (by decide) (by decide)

theorem process_event_answer (cfg : Config) (e : Event) (s : SMState)
    (h : e.getHeader "Event-Name" = some "CHANNEL_ANSWER"
       ∨ e.getHeader "Event-Name" = some "CHANNEL_BRIDGE") :
    process_event cfg e s = handle_answer e s := by
  rcases h with h | h <;> simp [process_event, ev_handlers, h, callHandler]

theorem handle_answer_spec (e : Event) (s : SMState) (u : String) (r : Nat)
    (hu : e.getHeader "Unique-ID" = some u)
    (hr : Dict.get? s.sessions u = some r) :
    handle_answer e s = { s with
      total_answered_sessions := s.total_answered_sessions + 1,
      store := Dict.modify s.store r (fun x => { x with answered := true }) } := by
  simp [handle_answer, hu, hr]

/-- Claim C10: `CHANNEL_BRIDGE` is dispatched to the same handler as
`CHANNEL_ANSWER` (`handle_answer`); for a session id present in the
primary registry each such event sets the session's answered flag and
increments the aggregate answered counter, so a session receiving both
a `CHANNEL_ANSWER` and a `CHANNEL_BRIDGE` event increments the answered
counter twice. -/
theorem c10_bridge_is_answer (cfg : Config) (s : SMState) (u : String) (r : Nat)
    (sess : Session) (eA eB : Event)
    (hA1 : eA.getHeader "Event-Name" = some "CHANNEL_ANSWER")
    (hA2 : eA.getHeader "Unique-ID" = some u)
    (hB1 : eB.getHeader "Event-Name" = some "CHANNEL_BRIDGE")
    (hB2 : eB.getHeader "Unique-ID" = some u)
    (hr : Dict.get? s.sessions u = some r)
    (hs : Dict.get? s.store r = some sess) :
    ev_handlers (eB.getHeader "Event-Name") = ev_handlers (eA.getHeader "Event-Name") ∧
    (runEvents cfg [eA, eB] s).total_answered_sessions
      = s.total_answered_sessions + 2 ∧
    ((runEvents cfg [eA, eB] s).obj r).answered = true := by
  have e1 : process_event cfg eA s = handle_answer eA s :=
    process_event_answer cfg eA s (Or.inl hA1)
  have e2 : ∀ s' : SMState, process_event cfg eB s' = handle_answer eB s' :=
    fun s' => process_event_answer cfg eB s' (Or.inr hB1)
  refine ⟨by simp [hA1, hB1, ev_handlers], ?_⟩
  simp only [runEvents, e1, e2]
  rw [handle_answer_spec eA s u r hA2 hr]
  rw [handle_answer_spec eB _ u r hB2 (by simpa using hr)]
  refine ⟨by simp, ?_⟩
  simp [SMState.obj, Dict.get?_modify_self, hs]

theorem c10_bridge_is_answer_witness :
    ev_handlers (Event.getHeader
        ⟨[("Event-Name", "CHANNEL_BRIDGE"), ("Unique-ID", "a")]⟩ "Event-Name")
      = ev_handlers (Event.getHeader
        ⟨[("Event-Name", "CHANNEL_ANSWER"), ("Unique-ID", "a")]⟩ "Event-Name") ∧
    (runEvents cfg0
      [⟨[("Event-Name", "CHANNEL_ANSWER"), ("Unique-ID", "a")]⟩,
       ⟨[("Event-Name", "CHANNEL_BRIDGE"), ("Unique-ID", "a")]⟩]
      bridgedState).total_answered_sessions
      = bridgedState.total_answered_sessions + 2 ∧
    ((runEvents cfg0
      [⟨[("Event-Name", "CHANNEL_ANSWER"), ("Unique-ID", "a")]⟩,
       ⟨[("Event-Name", "CHANNEL_BRIDGE"), ("Unique-ID", "a")]⟩]
      bridgedState).obj 0).answered = true :=
  c10_bridge_is_answer cfg0 bridgedState "a" 0 bridgedSess
    ⟨[("Event-Name", "CHANNEL_ANSWER"), ("Unique-ID", "a")]⟩
    ⟨[("Event-Name", "CHANNEL_BRIDGE"), ("Unique-ID", "a")]⟩
    (by decide) (by decide) (by decide) (by decide) (by decide) (by decide)

section HandlerPreservation

theorem handle_create_causes (cfg : Config) (e : Event) (s : SMState) :
    (handle_create cfg e s).hangup_causes = s.hangup_causes := by
  simp only [handle_create]
  repeat' split
  all_goals rfl

theorem handle_originate_causes (cfg : Config) (e : Event) (s : SMState) :
    (handle_originate cfg e s).hangup_causes = s.hangup_causes := by
  simp only [handle_originate]
  repeat' split
  all_goals rfl

theorem handle_answer_causes (e : Event) (s : SMState) :
    (handle_answer e s).hangup_causes = s.hangup_causes := by
  simp only [handle_answer]
  repeat' split
  all_goals rfl

theorem handle_bert_lost_sync_causes (e : Event) (s : SMState) :
    (handle_bert_lost_sync e s).hangup_causes = s.hangup_causes := by
  simp only [handle_bert_lost_sync]
  repeat' split
  all_goals rfl

theorem handle_bert_timeout_causes (e : Event) (s : SMState) :
    (handle_bert_timeout e s).hangup_causes = s.hangup_causes := by
  simp only [handle_bert_timeout]
  repeat' split
  all_goals rfl

theorem handle_custom_causes (e : Event) (s : SMState) :
    (handle_custom e s).hangup_causes = s.hangup_causes := by
  unfold handle_custom
  split <;>
    simp [handle_bert_timeout_causes, handle_bert_lost_sync_causes]

theorem handle_create_sessions (cfg : Config) (e : Event) (s : SMState) :
    (handle_create cfg e s).sessions = s.sessions := by
  simp only [handle_create]
  repeat' split
  all_goals rfl

theorem handle_originate_sessions (cfg : Config) (e : Event) (s : SMState) :
    (handle_originate cfg e s).sessions = s.sessions := by
  simp only [handle_originate]
  repeat' split
  all_goals rfl

theorem handle_answer_sessions (e : Event) (s : SMState) :
    (handle_answer e s).sessions = s.sessions := by
  simp only [handle_answer]
  repeat' split
  all_goals rfl

theorem handle_bert_lost_sync_sessions (e : Event) (s : SMState) :
    (handle_bert_lost_sync e s).sessions = s.sessions := by
  simp only [handle_bert_lost_sync]
  repeat' split
  all_goals rfl

theorem handle_bert_timeout_sessions (e : Event) (s : SMState) :
    (handle_bert_timeout e s).sessions = s.sessions := by
  simp only [handle_bert_timeout]
  repeat' split
  all_goals rfl

theorem handle_custom_sessions (e : Event) (s : SMState) :
    (handle_custom e s).sessions = s.sessions := by
  unfold handle_custom
  split <;>
    simp [handle_bert_timeout_sessions, handle_bert_lost_sync_sessions]

theorem handle_hangup_sessions_le (cfg : Config) (e : Event) (s : SMState) :
    (handle_hangup cfg e s).sessions.length ≤ s.sessions.length := by
  simp only [handle_hangup]
  repeat' split
  all_goals simp [Dict.length_del_le]

theorem process_event_sessions_le (cfg : Config) (e : Event) (s : SMState) :
    (process_event cfg e s).sessions.length ≤ s.sessions.length := by
  unfold process_event
  cases hn : e.getHeader "Event-Name" with
  | none => simp [ev_handlers]
  | some n =>
    simp only [ev_handlers]
    split_ifs <;>
      simp [callHandler, handle_create_sessions, handle_originate_sessions,
        handle_answer_sessions, handle_custom_sessions, handle_hangup_sessions_le]

end HandlerPreservation

/-- A hangup event that `handle_hangup` acts on in state `s`: its
`Unique-ID` is a key of the primary registry. -/
def isEffectiveHangup (e : Event) (s : SMState) : Bool :=
  (e.getHeader "Event-Name" = some "CHANNEL_HANGUP") &&
    (match e.getHeader "Unique-ID" with
     | some u => (Dict.get? s.sessions u).isSome
     | none => false)

/-- Number of hangup events in a trace that find their session in the
registry at the moment they are processed. -/
def effectiveHangups (cfg : Config) : List Event → SMState → Nat
  | [], _ => 0
  | e :: t, s =>
    (if isEffectiveHangup e s then 1 else 0)
      + effectiveHangups cfg t (process_event cfg e s)

/-- Number of hangup events a trace delivers to the dispatcher,
following the claim's words ("hangup events processed by the
dispatcher"). -/
def countHangupEvents (es : List Event) : Nat :=
  (es.filter (fun e => e.getHeader "Event-Name" = some "CHANNEL_HANGUP")).length

theorem histSum_handle_hangup (cfg : Config) (e : Event) (s : SMState) :
    (List.map Prod.snd (handle_hangup cfg e s).hangup_causes).sum
      = (List.map Prod.snd s.hangup_causes).sum +
      (if (match e.getHeader "Unique-ID" with
           | some u => (Dict.get? s.sessions u).isSome
           | none => false) then 1 else 0) := by
  unfold handle_hangup
  cases hu : e.getHeader "Unique-ID" with
  | none => simp
  | some u =>
    cases hg : Dict.get? s.sessions u with
    | none => simp [hg]
    | some r =>
      simp only [hg, Option.isSome_some, if_pos]
      split <;> split <;> simp [sum_bumpCause]

theorem histSum_process_event (cfg : Config) (e : Event) (s : SMState) :
    histSum (process_event cfg e s)
      = histSum s + (if isEffectiveHangup e s then 1 else 0) := by
  unfold process_event isEffectiveHangup
  cases hn : e.getHeader "Event-Name" with
  | none => simp [ev_handlers]
  | some n =>
    simp only [ev_handlers]
    split_ifs with h1 h2 h3 h4 h5 h6 h7 <;> subst_vars <;>
      simp_all [callHandler, histSum, handle_create_causes,
        handle_originate_causes, handle_answer_causes, handle_custom_causes,
        histSum_handle_hangup]

/-- Claim C8, amended: the sum of the hangup-cause histogram counts
equals the number of hangup events processed whose session id was
present in the primary registry when processed; hangup events for
unknown ids are dispatched but recorded nowhere. -/
theorem c8_histogram_sum_effective (cfg : Config) (trace : List Event) (s : SMState) :
    histSum (runEvents cfg trace s) = histSum s + effectiveHangups cfg trace s := by
  induction trace generalizing s with
  | nil => simp [runEvents, effectiveHangups]
  | cons e t ih =>
    simp only [runEvents, effectiveHangups]
    rw [ih, histSum_process_event]
    omega

/-- Claim C8 counterexample: one hangup event for a session id absent
from the registry is processed by the dispatcher but recorded in no
histogram bucket, so the histogram total (0) differs from the number of
hangup events processed (1). -/
theorem c8_counterexample :
    histSum (runEvents cfg0
        [⟨[("Event-Name", "CHANNEL_HANGUP"), ("Unique-ID", "zz"),
           ("Hangup-Cause", "NO_ANSWER")]⟩] baseState) = 0 ∧
    countHangupEvents
        [⟨[("Event-Name", "CHANNEL_HANGUP"), ("Unique-ID", "zz"),
           ("Hangup-Cause", "NO_ANSWER")]⟩] = 1 ∧
    histSum (runEvents cfg0
        [⟨[("Event-Name", "CHANNEL_HANGUP"), ("Unique-ID", "zz"),
           ("Hangup-Cause", "NO_ANSWER")]⟩] baseState) ≠
      countHangupEvents
        [⟨[("Event-Name", "CHANNEL_HANGUP"), ("Unique-ID", "zz"),
           ("Hangup-Cause", "NO_ANSWER")]⟩] := by
  decide

theorem reconnect_sessions (s : SMState) : (reconnect s).1.sessions = s.sessions := by
  by_cases h : s.con_connected
  · simp [reconnect, h]
  · simp only [reconnect, if_neg h]
    split <;> rfl

theorem reconnect_like_sessions (s : SMState) :
    ((if s.con_connected then (s, none) else reconnect s) : SMState × Option PyErr).1.sessions
      = s.sessions := by
  split
  · rfl
  · exact reconnect_sessions s

theorem originate_loop_len (cfg : Config) (n cnt : Nat) (s : SMState) :
    (originate_loop cfg n cnt s).sessions.length ≤
      s.sessions.length + min n (cfg.limit - cnt) := by
  induction n generalizing cnt s with
  | zero => simp [originate_loop]
  | succ n ih =>
    unfold originate_loop
    split
    · rename_i h
      have hz : cfg.limit - cnt = 0 := by omega
      simp [hz]
    · rename_i h
      refine le_trans (ih (cnt + 1) _) ?_
      have hset := Dict.length_set_le s.sessions (genUuid s.uuid_ctr) s.next_ref
      simp only
      omega

theorem originate_sessions_len (cfg : Config) (s : SMState) :
    (originate_sessions cfg s).1.sessions.length ≤
      s.sessions.length + min cfg.rate (cfg.limit - s.sessions.length) := by
  unfold originate_sessions
  split
  · exact Nat.le_add_right _ _
  · rcases hc : (if s.con_connected then (s, (none : Option PyErr)) else reconnect s)
      with ⟨s1, err⟩
    have hs1 : s1.sessions = s.sessions := by
      have h := reconnect_like_sessions s
      rw [hc] at h
      exact h
    cases err with
    | some er =>
      show s1.sessions.length ≤
        s.sessions.length + min cfg.rate (cfg.limit - s.sessions.length)
      rw [hs1]
      exact Nat.le_add_right _ _
    | none =>
      show (if cfg.max_sessions ≠ 0 ∧ s1.total_originated_sessions ≥ cfg.max_sessions
          then (s1, (none : Option PyErr))
          else ((fun s2 => ({ s2 with sched_enters := s2.sched_enters ++ [cfg.time_rate] },
            (none : Option PyErr))) (originate_loop cfg cfg.rate s1.sessions.length s1))).1.sessions.length ≤
        s.sessions.length + min cfg.rate (cfg.limit - s.sessions.length)
      split
      · rw [hs1]
        exact Nat.le_add_right _ _
      · have hloop := originate_loop_len cfg cfg.rate s1.sessions.length s1
        rw [hs1] at hloop
        simpa [hs1] using hloop

theorem runStep_len (cfg : Config) (st : Step) (s : SMState)
    (h : s.sessions.length ≤ cfg.limit) :
    (runStep cfg st s).sessions.length ≤ cfg.limit := by
  cases st with
  | ev e => exact le_trans (process_event_sessions_le cfg e s) h
  | tick =>
    have ht := originate_sessions_len cfg s
    simp only [runStep]
    omega

theorem runSteps_len (cfg : Config) (steps : List Step) (s : SMState)
    (h : s.sessions.length ≤ cfg.limit) :
    (runSteps cfg steps s).sessions.length ≤ cfg.limit := by
  induction steps generalizing s with
  | nil => exact h
  | cons st t ih => exact ih _ (runStep_len cfg st s h)

/-- Claim C6: after any prior history of origination ticks and inbound
events (hangups included), provided the registry started within the
limit, a further origination tick leaves the registry size at most
`limit`, and the tick adds at most `min rate (limit - currentSize)` new
sessions. -/
theorem c6_limit_bound (cfg : Config) (steps : List Step) (s0 : SMState)
    (h0 : s0.sessions.length ≤ cfg.limit) :
    (originate_sessions cfg (runSteps cfg steps s0)).1.sessions.length ≤ cfg.limit ∧
    (originate_sessions cfg (runSteps cfg steps s0)).1.sessions.length ≤
      (runSteps cfg steps s0).sessions.length +
        min cfg.rate (cfg.limit - (runSteps cfg steps s0).sessions.length) := by
  have hpre := runSteps_len cfg steps s0 h0
  have htick := originate_sessions_len cfg (runSteps cfg steps s0)
  exact ⟨by omega, htick⟩

theorem c6_limit_bound_witness :
    (originate_sessions cfg0 (runSteps cfg0 [Step.tick] baseState)).1.sessions.length
        ≤ cfg0.limit ∧
    (originate_sessions cfg0 (runSteps cfg0 [Step.tick] baseState)).1.sessions.length
        ≤ (runSteps cfg0 [Step.tick] baseState).sessions.length +
          min cfg0.rate
            (cfg0.limit - (runSteps cfg0 [Step.tick] baseState).sessions.length) :=
  c6_limit_bound cfg0 [Step.tick] baseState (by decide)

theorem process_event_hangup (cfg : Config) (e : Event) (s : SMState)
    (h : e.getHeader "Event-Name" = some "CHANNEL_HANGUP") :
    process_event cfg e s = handle_hangup cfg e s := by
  simp [process_event, ev_handlers, h, callHandler]

theorem handle_answer_noop (e : Event) (s : SMState) (u : String)
    (hu : e.getHeader "Unique-ID" = some u)
    (hg : Dict.get? s.sessions u = none) : handle_answer e s = s := by
  simp [handle_answer, hu, hg]

theorem handle_hangup_noop (cfg : Config) (e : Event) (s : SMState) (u : String)
    (hu : e.getHeader "Unique-ID" = some u)
    (hg : Dict.get? s.sessions u = none) : handle_hangup cfg e s = s := by
  simp [handle_hangup, hu, hg]

theorem handle_hangup_store (cfg : Config) (e : Event) (s : SMState) :
    (handle_hangup cfg e s).store = s.store := by
  simp only [handle_hangup]
  repeat' split
  all_goals rfl

theorem handle_hangup_answered (cfg : Config) (e : Event) (s : SMState) :
    (handle_hangup cfg e s).total_answered_sessions = s.total_answered_sessions := by
  simp only [handle_hangup]
  repeat' split
  all_goals rfl

theorem handle_hangup_found (cfg : Config) (e : Event) (s : SMState)
    (u : String) (r : Nat)
    (hu : e.getHeader "Unique-ID" = some u)
    (hr : Dict.get? s.sessions u = some r) :
    (handle_hangup cfg e s).sessions = Dict.del s.sessions u ∧
    (handle_hangup cfg e s).total_failed_sessions =
      (if (s.obj r).answered then s.total_failed_sessions
       else s.total_failed_sessions + 1) := by
  simp only [handle_hangup, hu, hr]
  constructor
  · split <;> split <;> rfl
  · split <;> split <;> simp_all [SMState.obj]

/-- Events the C5 claim ranges over: answer, bridge and hangup events
addressed to session `sid`. -/
def forSid (sid : String) (e : Event) : Prop :=
  e.getHeader "Unique-ID" = some sid ∧
    (e.getHeader "Event-Name" = some "CHANNEL_ANSWER" ∨
     e.getHeader "Event-Name" = some "CHANNEL_BRIDGE" ∨
     e.getHeader "Event-Name" = some "CHANNEL_HANGUP")

instance (sid : String) (e : Event) : Decidable (forSid sid e) := by
  unfold forSid
  infer_instance

/-- Inductive invariant for claim C5.  With `A0`/`F0` the counters at
the start of the observation: while session `sid` is live and
unanswered neither counter moved; while live and answered only the
answered counter moved; once removed exactly one of the two counters
moved. -/
def C5Inv (sid : String) (r A0 F0 : Nat) (s : SMState) : Prop :=
  (Dict.keys s.sessions).Nodup ∧
  ((Dict.get? s.sessions sid = some r ∧ (Dict.get? s.store r).isSome ∧
      (s.obj r).answered = false ∧
      s.total_answered_sessions = A0 ∧ s.total_failed_sessions = F0) ∨
   (Dict.get? s.sessions sid = some r ∧ (Dict.get? s.store r).isSome ∧
      (s.obj r).answered = true ∧
      A0 < s.total_answered_sessions ∧ s.total_failed_sessions = F0) ∨
   (Dict.get? s.sessions sid = none ∧
      ((A0 < s.total_answered_sessions ∧ s.total_failed_sessions = F0) ∨
       (s.total_answered_sessions = A0 ∧ F0 < s.total_failed_sessions))))

theorem C5Inv_step (cfg : Config) (sid : String) (r A0 F0 : Nat) (e : Event)
    (s : SMState) (he : forSid sid e) (hinv : C5Inv sid r A0 F0 s) :
    C5Inv sid r A0 F0 (process_event cfg e s) := by
  obtain ⟨hu, hname⟩ := he
  obtain ⟨hnd, hphase⟩ := hinv
  have hcase : process_event cfg e s = handle_answer e s ∨
      process_event cfg e s = handle_hangup cfg e s := by
    rcases hname with hn | hn | hn
    · exact Or.inl (process_event_answer cfg e s (Or.inl hn))
    · exact Or.inl (process_event_answer cfg e s (Or.inr hn))
    · exact Or.inr (process_event_hangup cfg e s hn)
  rcases hcase with hpe | hpe <;> rw [hpe]
  · rcases hphase with ⟨hg, hst, hflag, hA, hF⟩ | ⟨hg, hst, hflag, hA, hF⟩ | ⟨hg, hrest⟩
    · rw [handle_answer_spec e s sid r hu hg]
      refine ⟨by simpa using hnd, Or.inr (Or.inl ⟨by simpa using hg, ?_, ?_, ?_, ?_⟩)⟩
      · show (Dict.get? (Dict.modify s.store r _) r).isSome
        rw [Dict.modify_isSome]
        exact hst
      · obtain ⟨sess, hsess⟩ := Option.isSome_iff_exists.mp hst
        simp [SMState.obj, Dict.get?_modify_self, hsess]
      · show A0 < s.total_answered_sessions + 1
        omega
      · exact hF
    · rw [handle_answer_spec e s sid r hu hg]
      refine ⟨by simpa using hnd, Or.inr (Or.inl ⟨by simpa using hg, ?_, ?_, ?_, ?_⟩)⟩
      · show (Dict.get? (Dict.modify s.store r _) r).isSome
        rw [Dict.modify_isSome]
        exact hst
      · obtain ⟨sess, hsess⟩ := Option.isSome_iff_exists.mp hst
        simp [SMState.obj, Dict.get?_modify_self, hsess]
      · show A0 < s.total_answered_sessions + 1
        omega
      · exact hF
    · rw [handle_answer_noop e s sid hu hg]
      exact ⟨hnd, Or.inr (Or.inr ⟨hg, hrest⟩)⟩
  · rcases hphase with ⟨hg, hst, hflag, hA, hF⟩ | ⟨hg, hst, hflag, hA, hF⟩ | ⟨hg, hrest⟩
    · have hfacts := handle_hangup_found cfg e s sid r hu hg
      refine ⟨?_, Or.inr (Or.inr ⟨?_, Or.inr ⟨?_, ?_⟩⟩)⟩
      · rw [hfacts.1]
        exact Dict.keys_del_nodup _ _ hnd
      · rw [hfacts.1]
        exact Dict.get?_del_self _ _ hnd
      · rw [handle_hangup_answered]
        exact hA
      · rw [hfacts.2, if_neg (by simp [hflag])]
        omega
    · have hfacts := handle_hangup_found cfg e s sid r hu hg
      refine ⟨?_, Or.inr (Or.inr ⟨?_, Or.inl ⟨?_, ?_⟩⟩)⟩
      · rw [hfacts.1]
        exact Dict.keys_del_nodup _ _ hnd
      · rw [hfacts.1]
        exact Dict.get?_del_self _ _ hnd
      · rw [handle_hangup_answered]
        exact hA
      · rw [hfacts.2, if_pos hflag]
        exact hF
    · rw [handle_hangup_noop cfg e s sid hu hg]
      exact ⟨hnd, Or.inr (Or.inr ⟨hg, hrest⟩)⟩

theorem C5Inv_run (cfg : Config) (sid : String) (r A0 F0 : Nat)
    (trace : List Event) (s : SMState)
    (htr : ∀ e ∈ trace, forSid sid e) (hinv : C5Inv sid r A0 F0 s) :
    C5Inv sid r A0 F0 (runEvents cfg trace s) := by
  induction trace generalizing s with
  | nil => exact hinv
  | cons e t ih =>
    exact ih (process_event cfg e s)
      (fun x hx => htr x (List.mem_cons_of_mem e hx))
      (C5Inv_step cfg sid r A0 F0 e s (htr e (List.mem_cons_self e t)) hinv)

/-- Claim C5: for a session removed from the registry by a hangup event
during a sequence of answer, bridge and hangup events addressed to it,
exactly one of the aggregate counters moved: either the answered
counter increased and the failed counter is unchanged, or the answered
counter is unchanged and the failed counter increased — never both. -/
theorem c5_exactly_one_counter (cfg : Config) (trace : List Event)
    (s0 : SMState) (sid : String) (r : Nat)
    (hnd : (Dict.keys s0.sessions).Nodup)
    (hg : Dict.get? s0.sessions sid = some r)
    (hst : (Dict.get? s0.store r).isSome)
    (hans : (s0.obj r).answered = false)
    (htr : ∀ e ∈ trace, forSid sid e)
    (hrm : Dict.get? (runEvents cfg trace s0).sessions sid = none) :
    (s0.total_answered_sessions < (runEvents cfg trace s0).total_answered_sessions ∧
      (runEvents cfg trace s0).total_failed_sessions = s0.total_failed_sessions) ∨
    ((runEvents cfg trace s0).total_answered_sessions = s0.total_answered_sessions ∧
      s0.total_failed_sessions < (runEvents cfg trace s0).total_failed_sessions) := by
  have hinv := C5Inv_run cfg sid r s0.total_answered_sessions
    s0.total_failed_sessions trace s0 htr
    ⟨hnd, Or.inl ⟨hg, hst, hans, rfl, rfl⟩⟩
  obtain ⟨-, h1 | h2 | h3⟩ := hinv
  · rw [hrm] at h1
    exact absurd h1.1 (by simp)
  · rw [hrm] at h2
    exact absurd h2.1 (by simp)
  · exact h3.2

theorem c5_exactly_one_counter_witness :
    (bridgedState.total_answered_sessions <
        (runEvents cfg0
          [⟨[("Event-Name", "CHANNEL_ANSWER"), ("Unique-ID", "a")]⟩,
           ⟨[("Event-Name", "CHANNEL_HANGUP"), ("Unique-ID", "a"),
             ("Hangup-Cause", "NORMAL_CLEARING")]⟩]
          bridgedState).total_answered_sessions ∧
      (runEvents cfg0
          [⟨[("Event-Name", "CHANNEL_ANSWER"), ("Unique-ID", "a")]⟩,
           ⟨[("Event-Name", "CHANNEL_HANGUP"), ("Unique-ID", "a"),
             ("Hangup-Cause", "NORMAL_CLEARING")]⟩]
          bridgedState).total_failed_sessions = bridgedState.total_failed_sessions) ∨
    ((runEvents cfg0
          [⟨[("Event-Name", "CHANNEL_ANSWER"), ("Unique-ID", "a")]⟩,
           ⟨[("Event-Name", "CHANNEL_HANGUP"), ("Unique-ID", "a"),
             ("Hangup-Cause", "NORMAL_CLEARING")]⟩]
          bridgedState).total_answered_sessions = bridgedState.total_answered_sessions ∧
      bridgedState.total_failed_sessions <
        (runEvents cfg0
          [⟨[("Event-Name", "CHANNEL_ANSWER"), ("Unique-ID", "a")]⟩,
           ⟨[("Event-Name", "CHANNEL_HANGUP"), ("Unique-ID", "a"),
             ("Hangup-Cause", "NORMAL_CLEARING")]⟩]
          bridgedState).total_failed_sessions) :=
  c5_exactly_one_counter cfg0
    [⟨[("Event-Name", "CHANNEL_ANSWER"), ("Unique-ID", "a")]⟩,
     ⟨[("Event-Name", "CHANNEL_HANGUP"), ("Unique-ID", "a"),
       ("Hangup-Cause", "NORMAL_CLEARING")]⟩]
    bridgedState "a" 0 (by decide) (by decide) (by decide) (by decide)
    (by decide) (by decide)

theorem qinsert_mem {α : Type} (ev : SEvent α) (q : List (SEvent α)) (y : SEvent α)
    (hy : y ∈ qinsert ev q) : y = ev ∨ y ∈ q := by
  induction q with
  | nil => simpa [qinsert] using hy
  | cons x t ih =>
    unfold qinsert at hy
    split at hy
    · rcases List.mem_cons.mp hy with h | h
      · exact Or.inl h
      · exact Or.inr h
    · rcases List.mem_cons.mp hy with h | h
      · exact Or.inr (by simp [h])
      · rcases ih h with h' | h'
        · exact Or.inl h'
        · exact Or.inr (List.mem_cons_of_mem x h')

theorem timeSorted_qinsert {α : Type} (ev : SEvent α) (q : List (SEvent α))
    (hs : timeSorted q) : timeSorted (qinsert ev q) := by
  induction q with
  | nil => simp [qinsert, timeSorted]
  | cons x t ih =>
    rw [timeSorted, List.pairwise_cons] at hs
    unfold qinsert
    split
    · rename_i hc
      have hex : ev.time ≤ x.time := by rcases hc with h | ⟨h, _⟩ <;> omega
      refine List.Pairwise.cons ?_ (List.Pairwise.cons hs.1 hs.2)
      intro b hb
      rcases List.mem_cons.mp hb with rfl | hbt
      · exact hex
      · exact le_trans hex (hs.1 b hbt)
    · rename_i hc
      push_neg at hc
      have hxe : x.time ≤ ev.time := by omega
      refine List.Pairwise.cons ?_ (ih hs.2)
      intro b hb
      rcases qinsert_mem ev t b hb with rfl | hbt
      · exact hxe
      · exact hs.1 b hbt

theorem dueAt_qinsert_not_due {α : Type} (now : Nat) (ev : SEvent α)
    (q : List (SEvent α)) (hev : now < ev.time) :
    dueAt now (qinsert ev q) = dueAt now q := by
  have hdue : isDue now ev = false := by simp [isDue]; omega
  induction q with
  | nil => simp [qinsert, dueAt, hdue]
  | cons x t ih =>
    unfold qinsert
    split
    · simp [dueAt, List.filter_cons, hdue]
    · simp only [dueAt, List.filter_cons] at ih ⊢
      rw [ih]

theorem timeSorted_enqueue {α : Type} (now : Nat) (l : List (Nat × Nat × α))
    (q : List (SEvent α)) (hs : timeSorted q) :
    timeSorted (l.foldl (fun acc d => qinsert ⟨now + d.1, d.2.1, d.2.2⟩ acc) q) := by
  induction l generalizing q with
  | nil => exact hs
  | cons x t ih => exact ih _ (timeSorted_qinsert _ _ hs)

theorem dueAt_enqueue {α : Type} (now : Nat) (l : List (Nat × Nat × α))
    (q : List (SEvent α)) (hpos : ∀ d ∈ l, 1 ≤ d.1) :
    dueAt now (l.foldl (fun acc d => qinsert ⟨now + d.1, d.2.1, d.2.2⟩ acc) q)
      = dueAt now q := by
  induction l generalizing q with
  | nil => rfl
  | cons x t ih =>
    rw [List.foldl_cons, ih _ (fun d hd => hpos d (List.mem_cons_of_mem x hd)),
      dueAt_qinsert_not_due]
    have : 1 ≤ x.1 := hpos x (List.mem_cons_self x t)
    simp only
    omega

theorem dueAt_nil_of_head {α : Type} (now : Nat) (ev : SEvent α)
    (q : List (SEvent α)) (hs : timeSorted (ev :: q)) (hev : now < ev.time) :
    dueAt now (ev :: q) = [] := by
  rw [timeSorted, List.pairwise_cons] at hs
  unfold dueAt
  rw [List.filter_eq_nil]
  intro a ha
  rcases List.mem_cons.mp ha with rfl | hat
  · simp [isDue]; omega
  · have := hs.1 a hat
    simp [isDue]; omega

theorem fast_run_aux_no_due {α : Type} (eff : α → List (Nat × Nat × α))
    (now fuel : Nat) (q : List (SEvent α)) (hnd : dueAt now q = []) :
    fast_run_aux eff now fuel q = (q, []) := by
  cases fuel with
  | zero => rfl
  | succ n =>
    cases q with
    | nil => rfl
    | cons ev rest =>
      have hev : now < ev.time := by
        by_contra h
        push_neg at h
        have hd : isDue now ev = true := by simp [isDue]; omega
        simp [dueAt, List.filter_cons, hd] at hnd
      simp [fast_run_aux, hev]

theorem fast_run_aux_spec {α : Type} (eff : α → List (Nat × Nat × α))
    (now : Nat) (fuel : Nat) (q : List (SEvent α))
    (hs : timeSorted q)
    (hpos : ∀ a d, d ∈ eff a → 1 ≤ d.1)
    (hfuel : (dueAt now q).length < fuel) :
    (fast_run_aux eff now fuel q).2 = dueAt now q ∧
    timeSorted (fast_run_aux eff now fuel q).1 ∧
    dueAt now (fast_run_aux eff now fuel q).1 = [] := by
  induction fuel generalizing q with
  | zero => omega
  | succ n ih =>
    cases q with
    | nil => simp [fast_run_aux, dueAt, timeSorted]
    | cons ev rest =>
      by_cases hev : now < ev.time
      · have hnd : dueAt now (ev :: rest) = [] := dueAt_nil_of_head now ev rest hs hev
        rw [fast_run_aux_no_due eff now (n + 1) _ hnd]
        exact ⟨hnd.symm ▸ rfl, hs, hnd⟩
      · push_neg at hev
        have hdue : isDue now ev = true := by simp [isDue]; omega
        have hrest_sorted : timeSorted rest := (List.pairwise_cons.mp hs).2
        have hq1_sorted := timeSorted_enqueue now (eff ev.action) rest hrest_sorted
        have hq1_due := dueAt_enqueue now (eff ev.action) rest
          (fun d hd => hpos ev.action d hd)
        have hcons : dueAt now (ev :: rest) = ev :: dueAt now rest := by
          simp [dueAt, List.filter_cons, hdue]
        have hfuel' :
            (dueAt now ((eff ev.action).foldl
              (fun acc d => qinsert ⟨now + d.1, d.2.1, d.2.2⟩ acc) rest)).length < n := by
          rw [hq1_due]
          rw [hcons] at hfuel
          simpa using Nat.lt_of_succ_lt_succ hfuel
        obtain ⟨h1, h2, h3⟩ := ih _ hq1_sorted hfuel'
        have hstep : fast_run_aux eff now (n + 1) (ev :: rest) =
            ((fast_run_aux eff now n ((eff ev.action).foldl
                (fun acc d => qinsert ⟨now + d.1, d.2.1, d.2.2⟩ acc) rest)).1,
             ev :: (fast_run_aux eff now n ((eff ev.action).foldl
                (fun acc d => qinsert ⟨now + d.1, d.2.1, d.2.2⟩ acc) rest)).2) := by
          simp [fast_run_aux, not_lt.mpr hev]
        rw [hstep]
        rw [hq1_due] at h1
        exact ⟨by rw [hcons]; simpa using h1, h2, h3⟩

/-- Claim C9: `fast_run` captures the clock once (`now`), cancels each
due event before invoking its action, and executes exactly the events
whose due time is at or before `now`, in due-time (queue) order; when
every rescheduling delay is positive, a second pass under the same
frozen clock executes nothing. -/
theorem c9_fast_run_frozen_clock {α : Type} (eff : α → List (Nat × Nat × α))
    (now fuel : Nat) (q : List (SEvent α))
    (hs : timeSorted q)
    (hpos : ∀ a d, d ∈ eff a → 1 ≤ d.1)
    (hfuel : (dueAt now q).length < fuel) :
    (fast_run_aux eff now fuel q).2 = dueAt now q ∧
    (fast_run_aux eff now fuel (fast_run_aux eff now fuel q).1).2 = [] := by
  obtain ⟨h1, _, h3⟩ := fast_run_aux_spec eff now fuel q hs hpos hfuel
  refine ⟨h1, ?_⟩
  rw [fast_run_aux_no_due eff now fuel _ h3]

theorem c9_fast_run_frozen_clock_witness :
    (fast_run_aux (fun _ : Nat => [(1, 1, 7)]) 3 4
        [⟨0, 1, 5⟩, ⟨9, 2, 6⟩]).2 = dueAt 3 [⟨0, 1, 5⟩, ⟨9, 2, 6⟩] ∧
    (fast_run_aux (fun _ : Nat => [(1, 1, 7)]) 3 4
        (fast_run_aux (fun _ : Nat => [(1, 1, 7)]) 3 4
          [⟨0, 1, 5⟩, ⟨9, 2, 6⟩]).1).2 = [] :=
  c9_fast_run_frozen_clock (fun _ : Nat => [(1, 1, 7)]) 3 4
    [⟨0, 1, 5⟩, ⟨9, 2, 6⟩] (by decide)
    (by
      intro a d hd
      simp at hd
      rw [hd])
    (by decide)

end PhaseOne
